import Mathlib

/-!
Shallow embedding of the trading-decision cycle implemented by
`app/behaviours/rsi_bot.py` (class `RsiBotBehaviour`).

Conventions of the embedding:
* Numeric balances and prices are modelled as rationals (`ℚ`).
* The holdings table managed through `db_handler` is a list of rows
  (`List Holding`), in insertion order; `read_holdings` with a filter is
  `List.filter`, `create_holding` appends, `update_holding` replaces the
  rows whose (exchange, symbol) key matches the mutated row.
* The in-memory dictionary built by `__get_holdings` maps
  `(exchange, symbol)` to the last row written for that key, so a Python
  dict lookup `current_holdings[exchange][symbol]` is `findHolding`
  (`getLast?` of the matching rows); a missing key raises `KeyError`,
  modelled as an error value.
* SQLAlchemy's `Query.one()` succeeds exactly when the filtered row set is
  a singleton (`queryOne`).
* Python exceptions abort the operation at the point they are raised; the
  database mutations already performed before that point persist.  `buy`
  and `sell` therefore return an `ExecResult` carrying the ledger as left
  behind, the transactions created, and the pending exception if any.
-/

namespace RsiBot

/-- A row of the holdings ledger: one balance triple per (exchange, symbol). -/
structure Holding where
  exchange : String
  symbol : String
  volume_free : ℚ
  volume_used : ℚ
  volume_total : ℚ
deriving DecidableEq

/-- The transaction record appended by `create_transaction`. -/
structure Transaction where
  exchange : String
  base_symbol : String
  quote_symbol : String
  action : String
  base_value : ℚ
  quote_value : ℚ
  fee_rate : ℚ
  base_volume : ℚ
  quote_volume : ℚ
deriving DecidableEq

/-- Top-of-book data returned by `get_order_book`: lists of (price, size). -/
structure OrderBook where
  asks : List (ℚ × ℚ)
  bids : List (ℚ × ℚ)

/-- The slice of `behaviour_config` this core reads: `mode`,
`buy.trade_limits` (a dict, modelled as an association list in insertion
order) and `open_order_max_hours`. -/
structure Config where
  mode : String
  trade_limits : List (String × ℚ)
  open_order_max_hours : Int

/-- Does row `h` match the (exchange, symbol) key? -/
def matchesKey (ex sym : String) (h : Holding) : Bool :=
  h.exchange == ex && h.symbol == sym

/-- `db_handler.read_holdings({'exchange': ex, 'symbol': sym})`. -/
def read_holdings (ledger : List Holding) (ex sym : String) : List Holding :=
  ledger.filter (matchesKey ex sym)

/-- SQLAlchemy `Query.one()`: the unique row, or `NoResultFound` /
`MultipleResultsFound`. -/
def queryOne (rows : List Holding) : Except String Holding :=
  match rows with
  | [] => .error "NoResultFound"
  | [h] => .ok h
  | _ => .error "MultipleResultsFound"

/-- `db_handler.update_holding(h)`: persist the mutated row over every row
with its (exchange, symbol) key. -/
def update_holding (ledger : List Holding) (h : Holding) : List Holding :=
  ledger.map (fun r => if matchesKey h.exchange h.symbol r then h else r)

/-- `db_handler.create_holding(payload)`: insert a new row. -/
def create_holding (ledger : List Holding) (h : Holding) : List Holding :=
  ledger ++ [h]

/-- Dictionary view of the ledger, as built by `__get_holdings`:
`current_holdings[ex][sym]`, where a later row for the same key overwrites
an earlier one.  `none` corresponds to a `KeyError` at the access site. -/
def findHolding (holdings : List Holding) (ex sym : String) : Option Holding :=
  (read_holdings holdings ex sym).getLast?

/-- Lookup in the `buy.trade_limits` dict (`sym in limits` then
`limits[sym]`; a later binding for the same key overwrites an earlier one). -/
def lookupLimit (limits : List (String × ℚ)) (sym : String) : Option ℚ :=
  ((limits.filter (fun p => p.1 == sym)).getLast?).map Prod.snd

instance exceptDecidableEq {ε α : Type} [DecidableEq ε] [DecidableEq α] :
    DecidableEq (Except ε α) := fun x y =>
  match x, y with
  | .error a, .error b =>
    if h : a = b then isTrue (h ▸ rfl) else isFalse fun hc => h (Except.error.inj hc)
  | .ok a, .ok b =>
    if h : a = b then isTrue (h ▸ rfl) else isFalse fun hc => h (Except.ok.inj hc)
  | .error _, .ok _ => isFalse fun hc => Except.noConfusion hc
  | .ok _, .error _ => isFalse fun hc => Except.noConfusion hc

/-- The trade-limit capping of `buy`/`sell` (lines 170-173 / 253-256): if
a limit is configured for the symbol and the spendable volume exceeds it,
spend only the limit. -/
def capAtLimit (limits : List (String × ℚ)) (sym : String) (vol : ℚ) : ℚ :=
  match lookupLimit limits sym with
  | some trade_limit => if vol > trade_limit then trade_limit else vol
  | none => vol

/-- Outcome of one `buy`/`sell` call: the ledger as left in the database,
the transaction records created, and the uncaught exception, if one was
raised partway through. -/
structure ExecResult where
  ledger : List Holding
  transactions : List Transaction
  error : Option String
deriving DecidableEq

/-- `RsiBotBehaviour.buy(base_symbol, quote_symbol, market_pair, exchange,
current_holdings)`.  `order_book` stands for the collaborator call
`get_order_book(market_pair, exchange)`; `current_holdings` is the dict
argument and `ledger` the state read and written through `db_handler`.
Note `if not base_ask` in Python is true both for a missing ask and for an
ask price of `0.0`. -/
def buy (cfg : Config) (base_symbol quote_symbol : String) (order_book : OrderBook)
    (exchange : String) (current_holdings ledger : List Holding) : ExecResult :=
  match order_book.asks with
  | [] => ⟨ledger, [], none⟩
  | (base_ask, _) :: _ =>
    if base_ask = 0 then ⟨ledger, [], none⟩
    else
      match findHolding current_holdings exchange quote_symbol with
      | none => ⟨ledger, [], some "KeyError"⟩
      | some current_symbol_holdings =>
        let quote_bid := capAtLimit cfg.trade_limits quote_symbol
          current_symbol_holdings.volume_free
        let base_volume := quote_bid / base_ask
        let purchase_payload : Transaction :=
          ⟨exchange, base_symbol, quote_symbol, "buy_base",
            base_ask, quote_bid, 0, base_volume, quote_bid⟩
        if cfg.mode = "live" then
          -- live path is a stub; only the transaction record is created
          ⟨ledger, [purchase_payload], none⟩
        else
          match read_holdings ledger exchange base_symbol with
          | [] =>
            let ledger1 := create_holding ledger
              ⟨exchange, base_symbol, base_volume, 0, base_volume⟩
            match queryOne (read_holdings ledger1 exchange quote_symbol) with
            | .error e => ⟨ledger1, [], some e⟩
            | .ok quote_holding =>
              let qfree := quote_holding.volume_free - quote_bid
              let ledger2 := update_holding ledger1
                ⟨exchange, quote_symbol, qfree, quote_holding.volume_used,
                  qfree + quote_holding.volume_used⟩
              ⟨ledger2, [purchase_payload], none⟩
          | [base_holding] =>
            let bfree := base_holding.volume_free + base_volume
            let ledger1 := update_holding ledger
              ⟨exchange, base_symbol, bfree, base_holding.volume_used,
                bfree + base_holding.volume_used⟩
            match queryOne (read_holdings ledger1 exchange quote_symbol) with
            | .error e => ⟨ledger1, [], some e⟩
            | .ok quote_holding =>
              let qfree := quote_holding.volume_free - quote_bid
              let ledger2 := update_holding ledger1
                ⟨exchange, quote_symbol, qfree, quote_holding.volume_used,
                  qfree + quote_holding.volume_used⟩
              ⟨ledger2, [purchase_payload], none⟩
          | _ =>
            -- `potential_holdings.count()` is non-zero, `.one()` raises
            ⟨ledger, [], some "MultipleResultsFound"⟩

/-- `RsiBotBehaviour.sell(base_symbol, quote_symbol, market_pair, exchange,
current_holdings)`, with the same conventions as `buy`. -/
def sell (cfg : Config) (base_symbol quote_symbol : String) (order_book : OrderBook)
    (exchange : String) (current_holdings ledger : List Holding) : ExecResult :=
  match order_book.bids with
  | [] => ⟨ledger, [], none⟩
  | (bid, _) :: _ =>
    if bid = 0 then ⟨ledger, [], none⟩
    else
      match findHolding current_holdings exchange base_symbol with
      | none => ⟨ledger, [], some "KeyError"⟩
      | some current_symbol_holdings =>
        let base_bid := capAtLimit cfg.trade_limits base_symbol
          current_symbol_holdings.volume_free
        let quote_volume := base_bid * bid
        let sale_payload : Transaction :=
          ⟨exchange, base_symbol, quote_symbol, "sell_base",
            bid, quote_volume, 0, base_bid, quote_volume⟩
        if cfg.mode = "live" then
          ⟨ledger, [sale_payload], none⟩
        else
          match queryOne (read_holdings ledger exchange base_symbol) with
          | .error e => ⟨ledger, [], some e⟩
          | .ok base_holding =>
            let bfree := base_holding.volume_free - base_bid
            let ledger1 := update_holding ledger
              ⟨exchange, base_symbol, bfree, base_holding.volume_used,
                bfree + base_holding.volume_used⟩
            match queryOne (read_holdings ledger1 exchange quote_symbol) with
            | .error e => ⟨ledger1, [], some e⟩
            | .ok quote_holding =>
              let qfree := quote_holding.volume_free + quote_volume
              let ledger2 := update_holding ledger1
                ⟨exchange, quote_symbol, qfree, quote_holding.volume_used,
                  qfree + quote_holding.volume_used⟩
              ⟨ledger2, [sale_payload], none⟩

/-! ## Order janitor (`run`, lines 80-97)

The source formats the order's timestamp as a string
(`datetime.fromtimestamp(order['timestamp']).strftime('%c')`) and then, in
live mode, evaluates `time_to_hold > order_time` where `time_to_hold` is a
`datetime`.  In Python 3 an ordered comparison between a `datetime` and a
`str` raises `TypeError`.  We model the two dynamically-typed operands and
the comparison explicitly. -/

/-- A dynamically typed Python value as used in the stale-order sweep:
either a `datetime` (seconds since the epoch) or a `str`. -/
inductive PyTimeVal where
  | dt (seconds : Int)
  | str (text : String)
deriving DecidableEq

/-- Python 3 ordered comparison `a > b`: defined within one type, a
`TypeError` across types. -/
def pyGtCompare : PyTimeVal → PyTimeVal → Except String Bool
  | .dt a, .dt b => .ok (decide (b < a))
  | .str a, .str b => .ok (decide (b < a))
  | _, _ => .error "TypeError"

/-- `datetime.fromtimestamp(t).strftime('%c')`: renders the timestamp as a
locale text.  The exact text is irrelevant to every theorem below, because
the value is only ever compared against a `datetime`, which raises
`TypeError` whatever the string contains. -/
def strftimeC (t : Int) : String :=
  toString t

/-- An open order as reported by `get_open_orders`. -/
structure OpenOrder where
  id : String
  timestamp : Int
deriving DecidableEq

/-- The body of the sweep loop for one order: compute `order_time` (a
string) and `time_to_hold` (a datetime), and in live mode cancel when
`time_to_hold > order_time`.  Returns the cancellations issued. -/
def sweepOrder (mode : String) (time_to_hold : PyTimeVal) (exchange : String)
    (o : OpenOrder) : Except String (List (String × String)) :=
  let order_time := PyTimeVal.str (strftimeC o.timestamp)
  if mode = "live" then
    match pyGtCompare time_to_hold order_time with
    | .error e => .error e
    | .ok true => .ok [(exchange, o.id)]
    | .ok false => .ok []
  else .ok []

/-- Sweep the orders of one exchange in sequence; an exception aborts. -/
def sweepExchange (mode : String) (time_to_hold : PyTimeVal) (exchange : String) :
    List OpenOrder → Except String (List (String × String))
  | [] => .ok []
  | o :: os =>
    match sweepOrder mode time_to_hold exchange o with
    | .error e => .error e
    | .ok c =>
      match sweepExchange mode time_to_hold exchange os with
      | .error e => .error e
      | .ok cs => .ok (c ++ cs)

/-- The stale-order sweep over all exchanges (`run`, lines 82-97).
`now` is `datetime.now()` in epoch seconds; `time_to_hold` is
`now - timedelta(hours=open_order_max_hours)`.  The returned list holds the
`cancel_order(exchange, order['id'])` calls issued. -/
def cancelStaleOrders (mode : String) (open_order_max_hours : Int) (now : Int) :
    List (String × List OpenOrder) → Except String (List (String × String))
  | [] => .ok []
  | (exchange, orders) :: rest =>
    match sweepExchange mode (.dt (now - open_order_max_hours * 3600)) exchange orders with
    | .error e => .error e
    | .ok c =>
      match cancelStaleOrders mode open_order_max_hours now rest with
      | .error e => .error e
      | .ok cs => .ok (c ++ cs)

/-! ## Holdings reconciler (`run` lines 99-107, `__create_holdings`,
`__update_holdings`) -/

/-- The `get_account_markets(exchange)` snapshot: the dict keys of `free`
(in iteration order) and the three per-symbol balance dicts, modelled as
total maps. -/
structure AccountMarkets where
  symbols : List String
  free : String → ℚ
  used : String → ℚ
  total : String → ℚ

/-- `__create_holdings`: for every exchange, create one Holding row per
symbol of the account's `free` dict, copying the reported free/used/total
verbatim. -/
def create_holdings (exchanges : List String) (account : String → AccountMarkets)
    (ledger : List Holding) : List Holding :=
  exchanges.foldl
    (fun led ex =>
      (account ex).symbols.foldl
        (fun led2 sym =>
          create_holding led2
            ⟨ex, sym, (account ex).free sym, (account ex).used sym, (account ex).total sym⟩)
        led)
    ledger

/-- `__update_holdings`: for every existing row, overwrite its three
volumes with the exchange-reported values for that (exchange, symbol). -/
def update_holdings (account : String → AccountMarkets)
    (ledger : List Holding) : List Holding :=
  ledger.foldl
    (fun led row =>
      update_holding led
        ⟨row.exchange, row.symbol, (account row.exchange).free row.symbol,
          (account row.exchange).used row.symbol, (account row.exchange).total row.symbol⟩)
    ledger

/-- The reconciliation phase of `run` (lines 99-107): bootstrap an empty
ledger from the account snapshots; re-sync a non-empty ledger only in live
mode; otherwise leave the ledger untouched. -/
def reconcilePhase (mode : String) (exchanges : List String)
    (account : String → AccountMarkets) (ledger : List Holding) : List Holding :=
  if ledger.isEmpty then create_holdings exchanges account ledger
  else if mode = "live" then update_holdings account ledger
  else ledger

/-! ## Decision engine (`run` lines 109-146) -/

/-- The classifier output for one market pair: the RSI value series (most
recent first) and the hot/cold flags. -/
structure IndicatorResult where
  values : List ℚ
  is_hot : Bool
  is_cold : Bool
deriving DecidableEq

/-- A decision for one classified pair. -/
inductive Decision where
  | buy
  | sell
  | hold
deriving DecidableEq

/-- The per-pair decision of `run`'s main loop.  The hot branch reads
`current_holdings[exchange][quote_symbol]['volume_total']` without any
absence guard (a missing key raises `KeyError`); only the base symbol's
absence is guarded.  The cold branch evaluates
`base_symbol in current_holdings[exchange]`, which raises `KeyError` when
the exchange itself has no entry. -/
def decideAction (holdings : List Holding) (exchange : String)
    (base_symbol quote_symbol : String) (r : IndicatorResult) :
    Except String Decision :=
  if r.is_hot then
    match findHolding holdings exchange quote_symbol with
    | none => .error "KeyError"
    | some quote_holding =>
      if ¬ quote_holding.volume_total = 0 then
        match findHolding holdings exchange base_symbol with
        | none => .ok .buy
        | some base_holding =>
          if base_holding.volume_total = 0 then .ok .buy else .ok .hold
      else .ok .hold
  else if r.is_cold then
    if holdings.any (fun h => h.exchange == exchange) then
      match findHolding holdings exchange base_symbol with
      | none => .ok .hold
      | some base_holding =>
        if ¬ base_holding.volume_free = 0 then .ok .sell else .ok .hold
    else .error "KeyError"
  else .ok .hold

/-- A classified pair as consumed by the decision loop: the split symbols,
the classifier output, and the pair's order book for the cycle. -/
structure PairCtx where
  base_symbol : String
  quote_symbol : String
  rsi : IndicatorResult
  book : OrderBook

/-- The decision loop of `run` for one exchange: visit the (already
sorted) pairs in order; on a buy/sell decision execute the trade against
the current ledger (`current_holdings` is re-read after every trade, hence
equals the ledger view) and continue with the mutated ledger; any uncaught
exception aborts the cycle. -/
def decisionLoop (cfg : Config) (exchange : String) :
    List PairCtx → List Holding → Except String (List Holding × List Transaction)
  | [], ledger => .ok (ledger, [])
  | p :: rest, ledger =>
    match decideAction ledger exchange p.base_symbol p.quote_symbol p.rsi with
    | .error e => .error e
    | .ok .buy =>
      let r := buy cfg p.base_symbol p.quote_symbol p.book exchange ledger ledger
      match r.error with
      | some e => .error e
      | none =>
        match decisionLoop cfg exchange rest r.ledger with
        | .error e => .error e
        | .ok (led, txs) => .ok (led, r.transactions ++ txs)
    | .ok .sell =>
      let r := sell cfg p.base_symbol p.quote_symbol p.book exchange ledger ledger
      match r.error with
      | some e => .error e
      | none =>
        match decisionLoop cfg exchange rest r.ledger with
        | .error e => .error e
        | .ok (led, txs) => .ok (led, r.transactions ++ txs)
    | .ok .hold => decisionLoop cfg exchange rest ledger

/-! ## Pair ordering (`run` lines 75-78)

`sorted(rsi_data[exchange], key=lambda x: rsi_data[exchange][x]['values'][0])`
sorts the pair names by their most recent indicator value only.  Python's
`sorted` is stable, so ties keep the iteration order of
`rsi_data[exchange]` (the market-data order); any stable ascending sort by
the same key — such as the insertion sort below — produces the same list. -/

/-- The sort key: `values[0]`, the most recent indicator value. -/
def pairKey (p : String × IndicatorResult) : ℚ :=
  p.2.values.headI

/-- Stable insertion of `x`: `x` goes in front of the first element not
strictly below it, hence before every equal element already present. -/
def insertStable {α : Type} (le : α → α → Bool) (x : α) : List α → List α
  | [] => [x]
  | y :: ys => if le x y then x :: y :: ys else y :: insertStable le x ys

/-- Stable insertion sort. -/
def stableSort {α : Type} (le : α → α → Bool) : List α → List α
  | [] => []
  | x :: xs => insertStable le x (stableSort le xs)

/-- `rsi_sorted_pairs[exchange]`: the classified pairs sorted (stably)
in ascending order of `values[0]`. -/
def rsi_sorted_pairs (pairs : List (String × IndicatorResult)) :
    List (String × IndicatorResult) :=
  stableSort (fun a b => decide (pairKey a ≤ pairKey b)) pairs

/-- Byte-wise lexicographic order on strings: the "natural key ordering"
of pair identifiers named by the spec. -/
def charListLe : List Char → List Char → Bool
  | [], _ => true
  | _ :: _, [] => false
  | a :: as, b :: bs =>
    if a.toNat < b.toNat then true
    else if b.toNat < a.toNat then false
    else charListLe as bs

/-- Natural (lexicographic) order on pair identifiers. -/
def strNaturalLe (a b : String) : Bool :=
  charListLe a.data b.data

/-- Modelled from the spec's words, for comparison with the code's
ordering: visit pairs "in ascending order of their most recent indicator
value (ties broken by natural key ordering of the pair identifier)". -/
def specSortValueThenName (pairs : List (String × IndicatorResult)) :
    List (String × IndicatorResult) :=
  stableSort
    (fun a b =>
      decide (pairKey a < pairKey b) ||
        (decide (pairKey a = pairKey b) && strNaturalLe a.1 b.1))
    pairs

/-! ## Properties under scrutiny -/

/-- The ledger invariant named by the spec:
`volume_total == volume_free + volume_used`. -/
def holdingInvariant (h : Holding) : Prop :=
  h.volume_total = h.volume_free + h.volume_used

instance holdingInvariantDecidable (h : Holding) : Decidable (holdingInvariant h) :=
  inferInstanceAs (Decidable (h.volume_total = h.volume_free + h.volume_used))

/-- Modelled from the spec's words, for comparison with the code's guard:
a BUY is emitted exactly when the pair is hot, the quote asset's FREE
balance is non-zero, and the base asset is absent or has total balance
zero. -/
def specBuyCondition (holdings : List Holding) (exchange base_symbol quote_symbol : String)
    (r : IndicatorResult) : Bool :=
  r.is_hot &&
    (match findHolding holdings exchange quote_symbol with
     | some q => !(q.volume_free == 0)
     | none => false) &&
    (match findHolding holdings exchange base_symbol with
     | none => true
     | some b => b.volume_total == 0)

/-- The atomicity property of a trade outcome: either nothing was applied
(ledger untouched, no transaction recorded), or the operation ran to
completion (no pending exception, hence all of its mutations and its
transaction record were applied). -/
def atomicOutcome (ledger : List Holding) (r : ExecResult) : Prop :=
  (r.ledger = ledger ∧ r.transactions = []) ∨ r.error = none

/-! ## Helper lemmas -/

theorem holdingInvariant_update {ledger : List Holding} {h' : Holding}
    (hl : ∀ h ∈ ledger, holdingInvariant h) (hh : holdingInvariant h') :
    ∀ h ∈ update_holding ledger h', holdingInvariant h := by
  intro h hm
  rcases List.mem_map.mp hm with ⟨r, hr, hfr⟩
  by_cases hk : matchesKey h'.exchange h'.symbol r = true
  · rw [if_pos hk] at hfr
    exact hfr ▸ hh
  · rw [if_neg hk] at hfr
    exact hfr ▸ hl r hr

theorem holdingInvariant_create {ledger : List Holding} {h' : Holding}
    (hl : ∀ h ∈ ledger, holdingInvariant h) (hh : holdingInvariant h') :
    ∀ h ∈ create_holding ledger h', holdingInvariant h := by
  intro h hm
  rcases List.mem_append.mp hm with hm1 | hm1
  · exact hl h hm1
  · rw [List.mem_singleton.mp hm1]
    exact hh

theorem read_holdings_update_ne (ledger : List Holding) (h' : Holding) (ex sym : String)
    (hsym : h'.symbol ≠ sym) :
    read_holdings (update_holding ledger h') ex sym = read_holdings ledger ex sym := by
  unfold read_holdings update_holding
  induction ledger with
  | nil => rfl
  | cons r rs ih =>
    simp only [List.map_cons, List.filter_cons]
    by_cases hk : matchesKey h'.exchange h'.symbol r = true
    · have hr2 : r.symbol = h'.symbol := by
        have hk2 := hk
        simp [matchesKey] at hk2
        exact hk2.2
      rw [if_pos hk]
      have hhf : matchesKey ex sym h' = false := by
        simp [matchesKey]
        intro _
        exact fun hc => absurd hc hsym
      have hrf : matchesKey ex sym r = false := by
        simp [matchesKey]
        intro _
        rw [hr2]
        exact fun hc => absurd hc hsym
      rw [hhf, hrf]
      exact ih
    · rw [if_neg hk]
      cases hm : matchesKey ex sym r
      · exact ih
      · rw [ih]

theorem read_holdings_create_ne (ledger : List Holding) (h' : Holding) (ex sym : String)
    (hsym : h'.symbol ≠ sym) :
    read_holdings (create_holding ledger h') ex sym = read_holdings ledger ex sym := by
  unfold read_holdings create_holding
  rw [List.filter_append]
  have hhf : matchesKey ex sym h' = false := by
    simp [matchesKey]
    intro _
    exact fun hc => absurd hc hsym
  simp [hhf]

theorem insertStable_perm {α : Type} (le : α → α → Bool) (x : α) :
    ∀ l : List α, (insertStable le x l).Perm (x :: l)
  | [] => List.Perm.refl _
  | y :: ys => by
    simp only [insertStable]
    split
    · exact List.Perm.refl _
    · exact ((insertStable_perm le x ys).cons y).trans (List.Perm.swap x y ys)

theorem stableSort_perm {α : Type} (le : α → α → Bool) :
    ∀ l : List α, (stableSort le l).Perm l
  | [] => List.Perm.refl _
  | x :: xs =>
    (insertStable_perm le x (stableSort le xs)).trans ((stableSort_perm le xs).cons x)

theorem insertStable_pairwise {α : Type} (k : α → ℚ) (x : α) :
    ∀ l : List α, l.Pairwise (fun a b => k a ≤ k b) →
      (insertStable (fun a b => decide (k a ≤ k b)) x l).Pairwise (fun a b => k a ≤ k b)
  | [], _ => by simp [insertStable]
  | y :: ys, h => by
    rcases List.pairwise_cons.mp h with ⟨hy, hys⟩
    simp only [insertStable]
    by_cases hxy : k x ≤ k y
    · rw [if_pos (decide_eq_true hxy)]
      refine List.pairwise_cons.mpr ⟨?_, h⟩
      intro b hb
      rcases List.mem_cons.mp hb with hb2 | hb2
      · exact hb2 ▸ hxy
      · exact le_trans hxy (hy b hb2)
    · rw [if_neg (by simpa using hxy)]
      refine List.pairwise_cons.mpr ⟨?_, insertStable_pairwise k x ys hys⟩
      intro b hb
      have hmem := (insertStable_perm _ x ys).mem_iff.mp hb
      rcases List.mem_cons.mp hmem with hb2 | hb2
      · exact hb2 ▸ le_of_lt (lt_of_not_le hxy)
      · exact hy b hb2

theorem stableSort_pairwise {α : Type} (k : α → ℚ) :
    ∀ l : List α,
      (stableSort (fun a b => decide (k a ≤ k b)) l).Pairwise (fun a b => k a ≤ k b)
  | [] => List.Pairwise.nil
  | x :: xs => insertStable_pairwise k x _ (stableSort_pairwise k xs)

theorem insertStable_filter_key {α : Type} (k : α → ℚ) (x : α) (v : ℚ) :
    ∀ l : List α,
      (insertStable (fun a b => decide (k a ≤ k b)) x l).filter (fun a => k a == v) =
        (if k x == v then [x] else []) ++ l.filter (fun a => k a == v)
  | [] => by
    cases hx : (k x == v) <;> simp [insertStable, List.filter, hx]
  | y :: ys => by
    simp only [insertStable]
    by_cases hxy : k x ≤ k y
    · rw [if_pos (decide_eq_true hxy)]
      cases hx : (k x == v) <;> simp [List.filter_cons, hx]
    · rw [if_neg (by simpa using hxy)]
      have hyx : k y < k x := lt_of_not_le hxy
      simp only [List.filter_cons]
      rw [insertStable_filter_key k x v ys]
      cases hy : (k y == v) with
      | false => simp [hy]
      | true =>
        have hxv : (k x == v) = false := by
          have hyv : k y = v := by simpa using hy
          simp only [beq_eq_false_iff_ne, ne_eq]
          intro hc
          rw [hc, ← hyv] at hyx
          exact lt_irrefl _ hyx
        simp [hy, hxv]

theorem stableSort_filter_key {α : Type} (k : α → ℚ) (v : ℚ) :
    ∀ l : List α,
      (stableSort (fun a b => decide (k a ≤ k b)) l).filter (fun a => k a == v) =
        l.filter (fun a => k a == v)
  | [] => rfl
  | x :: xs => by
    simp only [stableSort]
    rw [insertStable_filter_key, stableSort_filter_key k v xs]
    simp only [List.filter_cons]
    cases hx : (k x == v) <;> simp [hx]

theorem foldl_create_symbols_invariant (ex : String) (am : AccountMarkets)
    (hacc : ∀ sym, am.total sym = am.free sym + am.used sym) :
    ∀ (syms : List String) (led : List Holding), (∀ h ∈ led, holdingInvariant h) →
      ∀ h ∈
        syms.foldl
          (fun led2 sym => create_holding led2 ⟨ex, sym, am.free sym, am.used sym, am.total sym⟩)
          led,
        holdingInvariant h
  | [], _, hl => by simpa using hl
  | s :: ss, led, hl => by
    simp only [List.foldl_cons]
    exact foldl_create_symbols_invariant ex am hacc ss _
      (holdingInvariant_create hl (hacc s))

theorem create_holdings_invariant (exchanges : List String) (account : String → AccountMarkets)
    (hacc : ∀ ex sym, (account ex).total sym = (account ex).free sym + (account ex).used sym) :
    ∀ (ledger : List Holding), (∀ h ∈ ledger, holdingInvariant h) →
      ∀ h ∈ create_holdings exchanges account ledger, holdingInvariant h := by
  unfold create_holdings
  induction exchanges with
  | nil => intro ledger hl; simpa using hl
  | cons ex rest ih =>
    intro ledger hl
    simp only [List.foldl_cons]
    exact ih _ (foldl_create_symbols_invariant ex (account ex) (hacc ex) _ ledger hl)

theorem foldl_update_rows_invariant (account : String → AccountMarkets)
    (hacc : ∀ ex sym, (account ex).total sym = (account ex).free sym + (account ex).used sym) :
    ∀ (rows led : List Holding), (∀ h ∈ led, holdingInvariant h) →
      ∀ h ∈
        rows.foldl
          (fun led2 row =>
            update_holding led2
              ⟨row.exchange, row.symbol, (account row.exchange).free row.symbol,
                (account row.exchange).used row.symbol,
                (account row.exchange).total row.symbol⟩)
          led,
        holdingInvariant h
  | [], _, hl => by simpa using hl
  | r :: rs, led, hl => by
    simp only [List.foldl_cons]
    exact foldl_update_rows_invariant account hacc rs _
      (holdingInvariant_update hl (hacc r.exchange r.symbol))

theorem reconcilePhase_invariant (mode : String) (exchanges : List String)
    (account : String → AccountMarkets) (ledger : List Holding)
    (hacc : ∀ ex sym, (account ex).total sym = (account ex).free sym + (account ex).used sym)
    (hl : ∀ h ∈ ledger, holdingInvariant h) :
    ∀ h ∈ reconcilePhase mode exchanges account ledger, holdingInvariant h := by
  unfold reconcilePhase
  split
  · exact create_holdings_invariant exchanges account hacc ledger hl
  · split
    · exact foldl_update_rows_invariant account hacc ledger ledger hl
    · exact hl

theorem holdingInvariant_mk (ex sym : String) (f u : ℚ) :
    holdingInvariant ⟨ex, sym, f, u, f + u⟩ :=
  rfl

theorem holdingInvariant_mk0 (ex sym : String) (f : ℚ) :
    holdingInvariant ⟨ex, sym, f, 0, f⟩ := by
  simp [holdingInvariant]

theorem buy_preserves_invariant (cfg : Config) (base_symbol quote_symbol : String)
    (order_book : OrderBook) (exchange : String) (ch ledger : List Holding)
    (hl : ∀ h ∈ ledger, holdingInvariant h) :
    ∀ h ∈ (buy cfg base_symbol quote_symbol order_book exchange ch ledger).ledger,
      holdingInvariant h := by
  simp only [buy]
  repeat' split
  all_goals first
    | exact hl
    | exact holdingInvariant_create hl (holdingInvariant_mk0 _ _ _)
    | exact holdingInvariant_update hl (holdingInvariant_mk _ _ _ _)
    | exact holdingInvariant_update
        (holdingInvariant_create hl (holdingInvariant_mk0 _ _ _)) (holdingInvariant_mk _ _ _ _)
    | exact holdingInvariant_update
        (holdingInvariant_update hl (holdingInvariant_mk _ _ _ _)) (holdingInvariant_mk _ _ _ _)

theorem sell_preserves_invariant (cfg : Config) (base_symbol quote_symbol : String)
    (order_book : OrderBook) (exchange : String) (ch ledger : List Holding)
    (hl : ∀ h ∈ ledger, holdingInvariant h) :
    ∀ h ∈ (sell cfg base_symbol quote_symbol order_book exchange ch ledger).ledger,
      holdingInvariant h := by
  simp only [sell]
  repeat' split
  all_goals first
    | exact hl
    | exact holdingInvariant_update hl (holdingInvariant_mk _ _ _ _)
    | exact holdingInvariant_update
        (holdingInvariant_update hl (holdingInvariant_mk _ _ _ _)) (holdingInvariant_mk _ _ _ _)

/-! ## Claim theorems -/

/-- C1 (counterexample): the reconciler's bootstrap copies the
exchange-reported free/used/total verbatim, so an account snapshot whose
triple does not add up yields a Holding row violating
`volume_total == volume_free + volume_used`. -/
theorem c1_bootstrap_invariant_counterexample :
    ¬ ∀ h ∈ reconcilePhase "backtest" ["binance"]
          (fun _ => ⟨["BTC"], fun _ => 1, fun _ => 0, fun _ => 5⟩) [],
        holdingInvariant h := by
  intro hall
  have hbad := hall ⟨"binance", "BTC", 1, 0, 5⟩ (by with_unfolding_all decide)
  simp only [holdingInvariant] at hbad
  norm_num at hbad

/-- C1 (amended): simulated buy and sell preserve the invariant
`volume_total == volume_free + volume_used` on every ledger row; the
reconciler's bootstrap and live re-sync preserve it provided every
exchange-reported (free, used, total) triple itself satisfies
total = free + used (the code copies the triples without enforcement). -/
theorem c1_invariant_preserved :
    (∀ (cfg : Config) (base_symbol quote_symbol : String) (order_book : OrderBook)
        (exchange : String) (ch ledger : List Holding),
      (∀ h ∈ ledger, holdingInvariant h) →
        (∀ h ∈ (buy cfg base_symbol quote_symbol order_book exchange ch ledger).ledger,
          holdingInvariant h) ∧
        (∀ h ∈ (sell cfg base_symbol quote_symbol order_book exchange ch ledger).ledger,
          holdingInvariant h)) ∧
    (∀ (mode : String) (exchanges : List String) (account : String → AccountMarkets)
        (ledger : List Holding),
      (∀ ex sym, (account ex).total sym = (account ex).free sym + (account ex).used sym) →
      (∀ h ∈ ledger, holdingInvariant h) →
        ∀ h ∈ reconcilePhase mode exchanges account ledger, holdingInvariant h) :=
  ⟨fun cfg bs qs ob ex ch ledger hl =>
      ⟨buy_preserves_invariant cfg bs qs ob ex ch ledger hl,
        sell_preserves_invariant cfg bs qs ob ex ch ledger hl⟩,
    fun mode exs account ledger hacc hl =>
      reconcilePhase_invariant mode exs account ledger hacc hl⟩

/-- C1 (witness): the invariant instance produced by a concrete simulated
buy, obtained through `c1_invariant_preserved`. -/
theorem c1_invariant_preserved_witness :
    holdingInvariant ⟨"binance", "USDT", 60, 0, 60⟩ :=
  (c1_invariant_preserved.1 ⟨"backtest", [("USDT", 40)], 24⟩ "BTC" "USDT" ⟨[(2, 1)], []⟩
      "binance" [⟨"binance", "USDT", 100, 0, 100⟩] [⟨"binance", "USDT", 100, 0, 100⟩]
      (by with_unfolding_all decide)).1
    ⟨"binance", "USDT", 60, 0, 60⟩ (by with_unfolding_all decide)

/-- C2 (counterexample): a simulated sell whose quote asset has no Holding
row commits the base-side mutation (BTC 10 → 0), then raises on the quote
read, recording no transaction: the trade is applied partially. -/
theorem c2_atomicity_counterexample :
    sell ⟨"backtest", [], 24⟩ "BTC" "USDT" ⟨[], [(5, 1)]⟩ "binance"
        [⟨"binance", "BTC", 10, 0, 10⟩] [⟨"binance", "BTC", 10, 0, 10⟩] =
      ⟨[⟨"binance", "BTC", 0, 0, 0⟩], [], some "NoResultFound"⟩ ∧
    [(⟨"binance", "BTC", 0, 0, 0⟩ : Holding)] ≠ [⟨"binance", "BTC", 10, 0, 10⟩] := by
  constructor <;> with_unfolding_all decide

/-- C2 (amended): for a pair whose base and quote symbols differ, a
buy/sell is atomic provided the ledger holds exactly one row for the quote
(counter) asset: then the operation either leaves the ledger untouched with
no transaction, or runs to completion with no pending exception.  A missing
or duplicated quote row instead aborts after the base-side mutation. -/
theorem c2_atomic_with_unique_quote_row (cfg : Config) (base_symbol quote_symbol : String)
    (order_book : OrderBook) (exchange : String) (ledger : List Holding) (q : Holding)
    (hbq : base_symbol ≠ quote_symbol)
    (hq : read_holdings ledger exchange quote_symbol = [q]) :
    atomicOutcome ledger (buy cfg base_symbol quote_symbol order_book exchange ledger ledger) ∧
    atomicOutcome ledger (sell cfg base_symbol quote_symbol order_book exchange ledger ledger) := by
  have hfq : findHolding ledger exchange quote_symbol = some q := by
    simp [findHolding, hq]
  constructor
  · simp only [buy, hfq, atomicOutcome]
    repeat' split
    all_goals first
      | exact Or.inr rfl
      | exact Or.inl ⟨rfl, rfl⟩
      | (rename_i heq
         rw [read_holdings_create_ne _ _ _ _ hbq, hq] at heq
         simp [queryOne] at heq)
      | (rename_i heq
         rw [read_holdings_update_ne _ _ _ _ hbq, hq] at heq
         simp [queryOne] at heq)
  · simp only [sell, atomicOutcome]
    repeat' split
    all_goals first
      | exact Or.inr rfl
      | exact Or.inl ⟨rfl, rfl⟩
      | (rename_i heq
         rw [read_holdings_update_ne _ _ _ _ hbq, hq] at heq
         simp [queryOne] at heq)

/-- C2 (witness): atomicity at a concrete state with a unique quote row,
obtained through `c2_atomic_with_unique_quote_row`. -/
theorem c2_atomic_with_unique_quote_row_witness :
    atomicOutcome [⟨"binance", "USDT", 100, 0, 100⟩]
        (buy ⟨"backtest", [], 24⟩ "BTC" "USDT" ⟨[(2, 1)], [(5, 1)]⟩ "binance"
          [⟨"binance", "USDT", 100, 0, 100⟩] [⟨"binance", "USDT", 100, 0, 100⟩]) ∧
    atomicOutcome [⟨"binance", "USDT", 100, 0, 100⟩]
        (sell ⟨"backtest", [], 24⟩ "BTC" "USDT" ⟨[(2, 1)], [(5, 1)]⟩ "binance"
          [⟨"binance", "USDT", 100, 0, 100⟩] [⟨"binance", "USDT", 100, 0, 100⟩]) :=
  c2_atomic_with_unique_quote_row ⟨"backtest", [], 24⟩ "BTC" "USDT" ⟨[(2, 1)], [(5, 1)]⟩
    "binance" [⟨"binance", "USDT", 100, 0, 100⟩] ⟨"binance", "USDT", 100, 0, 100⟩
    (by decide) (by with_unfolding_all decide)

/-- C3 (counterexample): the code gates a buy on the quote asset's
`volume_total`, not its free balance: with quote free = 0 but used = 5
(total = 5), a hot pair with no base row still produces a BUY, although
the claimed condition (free balance non-zero) is false. -/
theorem c3_buy_condition_counterexample :
    decideAction [⟨"binance", "USDT", 0, 5, 5⟩] "binance" "BTC" "USDT" ⟨[10], true, false⟩ =
      .ok .buy ∧
    specBuyCondition [⟨"binance", "USDT", 0, 5, 5⟩] "binance" "BTC" "USDT" ⟨[10], true, false⟩ =
      false := by
  constructor <;> with_unfolding_all decide

/-- C3 (amended): a BUY decision is emitted exactly when the pair is hot,
the quote asset is present with non-zero TOTAL balance, and the base asset
is absent or has total balance zero (so a hot pair whose base asset has
positive total never produces a buy). -/
theorem c3_buy_condition (holdings : List Holding) (exchange base_symbol quote_symbol : String)
    (r : IndicatorResult) :
    decideAction holdings exchange base_symbol quote_symbol r = .ok .buy ↔
      (r.is_hot = true ∧
        (∃ q, findHolding holdings exchange quote_symbol = some q ∧ ¬ q.volume_total = 0) ∧
        (findHolding holdings exchange base_symbol = none ∨
          ∃ b, findHolding holdings exchange base_symbol = some b ∧ b.volume_total = 0)) := by
  unfold decideAction
  cases hh : r.is_hot with
  | true =>
    cases hfq : findHolding holdings exchange quote_symbol with
    | none => simp
    | some q =>
      by_cases hqt : q.volume_total = 0
      · simp [hqt]
      · cases hfb : findHolding holdings exchange base_symbol with
        | none => simp [hqt]
        | some b =>
          by_cases hbt : b.volume_total = 0
          · simp [hqt, hbt]
          · simp [hqt, hbt]
  | false =>
    rw [if_neg (by simp)]
    cases hc : r.is_cold with
    | false =>
      rw [if_neg (by simp)]
      simp
    | true =>
      rw [if_pos rfl]
      by_cases hex : holdings.any (fun h => h.exchange == exchange) = true
      · rw [if_pos hex]
        cases hfb : findHolding holdings exchange base_symbol with
        | none => simp
        | some b =>
          simp only [hfb]
          split <;> simp
      · rw [if_neg hex]
        simp

/-- C4: in live mode the stale-order sweep compares a `datetime` against
the `strftime('%c')` string and raises `TypeError` on the first order (here
an order well past the 24-hour threshold which the spec says must be
cancelled); in non-live mode the sweep does nothing. -/
theorem c4_janitor_live_type_error :
    cancelStaleOrders "live" 24 1700000000 [("binance", [⟨"order-1", 1600000000⟩])] =
      .error "TypeError" ∧
    cancelStaleOrders "backtest" 24 1700000000 [("binance", [⟨"order-1", 1600000000⟩])] =
      .ok [] := by
  constructor <;> with_unfolding_all decide

/-- C5 (counterexample): the sort key is `values[0]` alone, and Python's
stable sort keeps the input order for ties; with two pairs of equal
indicator value arriving as [B/USDT, A/USDT], the code visits B before A,
not the natural key order A before B demanded by the claim. -/
theorem c5_tie_break_counterexample :
    (rsi_sorted_pairs
        [("B/USDT", ⟨[50], false, false⟩), ("A/USDT", ⟨[50], false, false⟩)]).map Prod.fst =
      ["B/USDT", "A/USDT"] ∧
    specSortValueThenName
        [("B/USDT", ⟨[50], false, false⟩), ("A/USDT", ⟨[50], false, false⟩)] ≠
      rsi_sorted_pairs
        [("B/USDT", ⟨[50], false, false⟩), ("A/USDT", ⟨[50], false, false⟩)] := by
  constructor <;> with_unfolding_all decide

/-- C5 (amended): the pairs are visited in ascending order of their most
recent indicator value, and ties keep the original iteration order of the
exchange's market data (Python's `sorted` is stable), not the natural key
order; the visited list is a permutation of the input, pairwise ascending
in the key, with equal-key pairs in input order; distinct values
[30, 45, 70] are visited in ascending order whatever the input order. -/
theorem c5_visit_order :
    (∀ pairs : List (String × IndicatorResult),
      (rsi_sorted_pairs pairs).Perm pairs ∧
      (rsi_sorted_pairs pairs).Pairwise (fun a b => pairKey a ≤ pairKey b) ∧
      ∀ v : ℚ, (rsi_sorted_pairs pairs).filter (fun a => pairKey a == v) =
        pairs.filter (fun a => pairKey a == v)) ∧
    (rsi_sorted_pairs
        [("C/USDT", ⟨[70], false, false⟩), ("A/USDT", ⟨[30], true, false⟩),
          ("B/USDT", ⟨[45], false, false⟩)]).map Prod.fst =
      ["A/USDT", "B/USDT", "C/USDT"] :=
  ⟨fun pairs =>
      ⟨stableSort_perm _ pairs, stableSort_pairwise pairKey pairs,
        fun v => stableSort_filter_key pairKey v pairs⟩,
    by with_unfolding_all decide⟩

/-- C6: in simulation mode, a buy of an absent base asset with quote free
balance 100, a trade limit of 40 for the quote asset, and ask price 2
creates exactly one `buy_base` Transaction with quote_value 40 and
base_volume 20, and reduces the quote Holding's free (and total) balance
from 100 to 60. -/
theorem c6_buy_guard :
    buy ⟨"backtest", [("USDT", 40)], 24⟩ "BTC" "USDT" ⟨[(2, 1)], []⟩ "binance"
        [⟨"binance", "USDT", 100, 0, 100⟩] [⟨"binance", "USDT", 100, 0, 100⟩] =
      ⟨[⟨"binance", "USDT", 60, 0, 60⟩, ⟨"binance", "BTC", 20, 0, 20⟩],
        [⟨"binance", "BTC", "USDT", "buy_base", 2, 40, 0, 20, 40⟩], none⟩ := by
  with_unfolding_all decide

/-- C7: in simulation mode, a sell of a base asset with free balance 10,
no trade limit for the base symbol, and bid price 5 creates exactly one
`sell_base` Transaction with base_volume 10 and quote_volume 50, and the
base Holding's free (and total) balance becomes 0. -/
theorem c7_sell_guard :
    sell ⟨"backtest", [], 24⟩ "BTC" "USDT" ⟨[], [(5, 1)]⟩ "binance"
        [⟨"binance", "BTC", 10, 0, 10⟩, ⟨"binance", "USDT", 5, 0, 5⟩]
        [⟨"binance", "BTC", 10, 0, 10⟩, ⟨"binance", "USDT", 5, 0, 5⟩] =
      ⟨[⟨"binance", "BTC", 0, 0, 0⟩, ⟨"binance", "USDT", 55, 0, 55⟩],
        [⟨"binance", "BTC", "USDT", "sell_base", 5, 50, 0, 10, 50⟩], none⟩ := by
  with_unfolding_all decide

/-- C8: a buy whose order book has an empty ask side, and a sell whose
order book has an empty bid side, return with the ledger unchanged, no
transaction and no error, whatever the rest of the state. -/
theorem c8_empty_book_noop (cfg : Config) (base_symbol quote_symbol exchange : String)
    (ch ledger : List Holding) (bids asks : List (ℚ × ℚ)) :
    buy cfg base_symbol quote_symbol ⟨[], bids⟩ exchange ch ledger = ⟨ledger, [], none⟩ ∧
    sell cfg base_symbol quote_symbol ⟨asks, []⟩ exchange ch ledger = ⟨ledger, [], none⟩ :=
  ⟨rfl, rfl⟩

/-- C9: when the ledger is non-empty and the mode is not live, the
reconciliation phase returns the ledger unchanged: every Holding keeps its
three volumes. -/
theorem c9_reconcile_nonlive_noop (mode : String) (exchanges : List String)
    (account : String → AccountMarkets) (ledger : List Holding)
    (hne : ledger ≠ []) (hmode : mode ≠ "live") :
    reconcilePhase mode exchanges account ledger = ledger := by
  unfold reconcilePhase
  cases ledger with
  | nil => exact absurd rfl hne
  | cons a as => simp [hmode]

/-- C9 (witness): reconciliation of a concrete non-empty ledger in
backtest mode, through `c9_reconcile_nonlive_noop`. -/
theorem c9_reconcile_nonlive_noop_witness :
    reconcilePhase "backtest" ["binance"]
        (fun _ => ⟨[], fun _ => 0, fun _ => 0, fun _ => 0⟩)
        [⟨"binance", "BTC", 1, 0, 1⟩] = [⟨"binance", "BTC", 1, 0, 1⟩] :=
  c9_reconcile_nonlive_noop "backtest" ["binance"]
    (fun _ => ⟨[], fun _ => 0, fun _ => 0, fun _ => 0⟩)
    [⟨"binance", "BTC", 1, 0, 1⟩] (by decide) (by decide)

/-- C10: a reachable state — the ledger bootstrapped from an account that
has an ETH balance but no USDT row — on which the hot branch's unguarded
`current_holdings[exchange][quote_symbol]` lookup raises `KeyError`, and
the decision loop aborts with that error instead of skipping the pair. -/
theorem c10_unguarded_quote_lookup :
    decideAction
        (reconcilePhase "backtest" ["binance"]
          (fun _ => ⟨["ETH"], fun _ => 3, fun _ => 0, fun _ => 3⟩) [])
        "binance" "BTC" "USDT" ⟨[10], true, false⟩ = .error "KeyError" ∧
    decisionLoop ⟨"backtest", [], 24⟩ "binance"
        [⟨"BTC", "USDT", ⟨[10], true, false⟩, ⟨[(2, 1)], [(2, 1)]⟩⟩]
        (reconcilePhase "backtest" ["binance"]
          (fun _ => ⟨["ETH"], fun _ => 3, fun _ => 0, fun _ => 3⟩) []) =
      .error "KeyError" := by
  constructor <;> rfl

end RsiBot
